import Mathlib

/-!
Verification of the HD multi-chain wallet manager
(`src/4-WebBasedWallet/webBasedWallet/src/App.tsx`).

The React component `HDWalletManager` keeps four pieces of state relevant to
the wallet logic: `mnemonic`, `customMnemonic`, `wallets : {solana, ethereum}`
and `error` (the presentation-only booleans `showMnemonic` / `isGenerating`
are omitted).  The cryptographic library calls (`bip39.mnemonicToSeedSync`,
`derivePath` + `nacl` + `Keypair` for Solana, `HDNode` + `Wallet` for
Ethereum, `bip39.validateMnemonic`) are deterministic functions of their
inputs; they are abstracted as a `CryptoModel` record of functions, with
`Except` results for the calls wrapped in `try/catch` in the source.
-/

namespace HDWallet

/-- `WalletData` interface (App.tsx lines 11-16). -/
structure WalletData where
  address : String
  privateKey : String
  derivationPath : String
  index : Nat
deriving DecidableEq, Repr

/-- `WalletState` interface (App.tsx lines 18-21). -/
structure WalletState where
  solana : List WalletData
  ethereum : List WalletData
deriving DecidableEq, Repr

/-- The two chains the app manages. -/
inductive Chain where
  | solana
  | ethereum
deriving DecidableEq, Repr

/-- The component state relevant to wallet logic (App.tsx lines 149-153). -/
structure AppState where
  mnemonic : String
  customMnemonic : String
  wallets : WalletState
  error : String
deriving DecidableEq, Repr

/-- Initial `useState` values: empty strings and empty registries. -/
def initialState : AppState := ⟨"", "", ⟨[], []⟩, ""⟩

/-- Abstraction of the deterministic crypto library functions.
`solDerive path seedHex` stands for the composite
`derivePath(path, seedHex).key` → `nacl.sign.keyPair.fromSeed` →
`Keypair.fromSecretKey`, returning `(address, privateKeyHex)`;
`ethDerive seed path` stands for `HDNode.fromSeed(seed).derivePath(path)` →
`new Wallet(child.privateKey)`, returning `(address, privateKey)`.
An `Except.error` models the `catch` branch of the source's `try/catch`. -/
structure CryptoModel where
  mnemonicToSeed : String → String
  validateMnemonic : String → Bool
  solDerive : String → String → Except String (String × String)
  ethDerive : String → String → Except String (String × String)

/-- `DERIVATION_PATHS.SOLANA` (App.tsx line 25): the string `m/44'/501'`. -/
def DERIVATION_PATHS_SOLANA : String := "m/44\x27/501\x27"

/-- `DERIVATION_PATHS.ETHEREUM` (App.tsx line 26): the string `m/44'/60'`. -/
def DERIVATION_PATHS_ETHEREUM : String := "m/44\x27/60\x27"

/-- The Solana derivation path built at App.tsx line 209:
`` `${DERIVATION_PATHS.SOLANA}/${currentIndex}'/0'` ``. -/
def solanaPath (i : Nat) : String :=
  DERIVATION_PATHS_SOLANA ++ "/" ++ Nat.repr i ++ "\x27/0\x27"

/-- The Ethereum derivation path built at App.tsx line 240:
`` `${DERIVATION_PATHS.ETHEREUM}/${currentIndex}` `` (note: no hardening
marker and no change segment). -/
def ethereumPath (i : Nat) : String :=
  DERIVATION_PATHS_ETHEREUM ++ "/" ++ Nat.repr i

/-- `generateSolanaWallet` (App.tsx lines 203-231).  The guard
`if (!mnemonic) return;` is the test for the empty string (the only falsy
string).  `currentIndex` is `wallets.solana.length`; on success the new
record is appended and the error banner cleared; on a thrown error the
message is recorded and the registries left alone. -/
def generateSolanaWallet (c : CryptoModel) (s : AppState) : AppState :=
  if s.mnemonic = "" then s
  else
    let seed := c.mnemonicToSeed s.mnemonic
    let currentIndex := s.wallets.solana.length
    let path := solanaPath currentIndex
    match c.solDerive path seed with
    | .ok (addr, priv) =>
        { s with
            wallets := { s.wallets with
                solana := s.wallets.solana ++ [⟨addr, priv, path, currentIndex⟩] },
            error := "" }
    | .error e => { s with error := "Failed to generate Solana wallet: " ++ e }

/-- `generateEthereumWallet` (App.tsx lines 233-261), symmetric to the
Solana case but with `HDNode`-based derivation and the non-hardened path. -/
def generateEthereumWallet (c : CryptoModel) (s : AppState) : AppState :=
  if s.mnemonic = "" then s
  else
    let seed := c.mnemonicToSeed s.mnemonic
    let currentIndex := s.wallets.ethereum.length
    let path := ethereumPath currentIndex
    match c.ethDerive seed path with
    | .ok (addr, priv) =>
        { s with
            wallets := { s.wallets with
                ethereum := s.wallets.ethereum ++ [⟨addr, priv, path, currentIndex⟩] },
            error := "" }
    | .error e => { s with error := "Failed to generate Ethereum wallet: " ++ e }

/-- `deriveNext` dispatch: the per-chain "Add Wallet" handler. -/
def deriveNext (c : CryptoModel) : Chain → AppState → AppState
  | .solana => generateSolanaWallet c
  | .ethereum => generateEthereumWallet c

/-- `prev[chain].filter((_, i) => i !== index)` (App.tsx line 266):
keep exactly the elements whose position differs from `index`. -/
def filterIdxNe (l : List WalletData) (index : Nat) : List WalletData :=
  (l.enum.filter (fun p => p.1 != index)).map (·.2)

/-- `removeWallet` (App.tsx lines 263-268): filters the chosen chain's
registry by position, leaving the other chain and all other state alone. -/
def removeWallet (chain : Chain) (index : Nat) (s : AppState) : AppState :=
  match chain with
  | .solana =>
      { s with wallets := { s.wallets with
                  solana := filterIdxNe s.wallets.solana index } }
  | .ethereum =>
      { s with wallets := { s.wallets with
                  ethereum := filterIdxNe s.wallets.ethereum index } }

/-- `importMnemonic` (App.tsx lines 185-201): trim the textarea contents,
reject the empty string, reject an invalid phrase, otherwise install the
phrase and reset both registries. -/
def importMnemonic (c : CryptoModel) (s : AppState) : AppState :=
  let trimmedMnemonic := s.customMnemonic.trim
  if trimmedMnemonic = "" then
    { s with error := "Please enter a mnemonic phrase" }
  else if c.validateMnemonic trimmedMnemonic then
    { s with error := "", mnemonic := trimmedMnemonic, wallets := ⟨[], []⟩ }
  else
    { s with error := "Invalid mnemonic phrase. Please check and try again." }

/-- The success path of `generateNewMnemonic` (App.tsx lines 160-183);
`newMnemonic` is the result of the external `bip39.generateMnemonic()`
call.  Both registries are reset (line 175). -/
def generateNewMnemonic (newMnemonic : String) (s : AppState) : AppState :=
  { s with error := "", mnemonic := newMnemonic,
           customMnemonic := newMnemonic, wallets := ⟨[], []⟩ }

/-- The "Clear seed phrase and wallets" button handler (App.tsx
lines 367-376). -/
def clear (s : AppState) : AppState :=
  { s with mnemonic := "", customMnemonic := "", wallets := ⟨[], []⟩ }

/-- The spec-level `setMnemonic(M)`: in the app, typing `M` into the import
textarea and pressing "Import Seed Phrase". -/
def setMnemonic (c : CryptoModel) (M : String) (s : AppState) : AppState :=
  importMnemonic c { s with customMnemonic := M }

/-- A concrete instantiation of the crypto library used to evaluate the
operations on closed inputs: addresses and private keys are tagged strings
built from the seed and path, so derivation is total and deterministic. -/
def cmTest : CryptoModel where
  mnemonicToSeed := fun m => m ++ ":seed"
  validateMnemonic := fun _ => true
  solDerive := fun path seed => .ok ("solA:" ++ seed ++ ":" ++ path, "solP:" ++ path)
  ethDerive := fun seed path => .ok ("ethA:" ++ seed ++ ":" ++ path, "ethP:" ++ path)

/-- Chain-indexed view of the two registries. -/
def registry : Chain → AppState → List WalletData
  | .solana, s => s.wallets.solana
  | .ethereum, s => s.wallets.ethereum

/-- Chain-indexed derivation-path constructor. -/
def chainPath : Chain → Nat → String
  | .solana => solanaPath
  | .ethereum => ethereumPath

/-- Chain-indexed derivation call, with the argument order of the per-chain
call sites in the source. -/
def chainDerive (c : CryptoModel) : Chain → String → String → Except String (String × String)
  | .solana => fun seed path => c.solDerive path seed
  | .ethereum => fun seed path => c.ethDerive seed path

/-- One UI-triggered action of the component (derive on either chain,
remove, import, generate, clear, or editing the import textarea). -/
inductive Step (c : CryptoModel) : AppState → AppState → Prop
  | deriveSol (s : AppState) : Step c s (generateSolanaWallet c s)
  | deriveEth (s : AppState) : Step c s (generateEthereumWallet c s)
  | removeW (chain : Chain) (i : Nat) (s : AppState) : Step c s (removeWallet chain i s)
  | importM (s : AppState) : Step c s (importMnemonic c s)
  | genM (m : String) (s : AppState) : Step c s (generateNewMnemonic m s)
  | clearS (s : AppState) : Step c s (clear s)
  | editCustom (m : String) (s : AppState) : Step c s { s with customMnemonic := m }

/-- Reachability by any sequence of UI actions. -/
inductive Reach (c : CryptoModel) : AppState → AppState → Prop
  | refl (s : AppState) : Reach c s s
  | tail {s t u : AppState} : Reach c s t → Step c t u → Reach c s u

/-- A derive action: "Add Wallet" on either chain, nothing else. -/
inductive DeriveStep (c : CryptoModel) : AppState → AppState → Prop
  | deriveSol (s : AppState) : DeriveStep c s (generateSolanaWallet c s)
  | deriveEth (s : AppState) : DeriveStep c s (generateEthereumWallet c s)

/-- Reachability by derive actions only (no removals). -/
inductive DeriveReach (c : CryptoModel) : AppState → AppState → Prop
  | refl (s : AppState) : DeriveReach c s s
  | tail {s t u : AppState} : DeriveReach c s t → DeriveStep c t u → DeriveReach c s u

/-- Every record's stored path is its chain's path at its stored index. -/
def StateWF (s : AppState) : Prop :=
  (∀ r ∈ s.wallets.solana, r.derivationPath = solanaPath r.index) ∧
  (∀ r ∈ s.wallets.ethereum, r.derivationPath = ethereumPath r.index)

/-- The stored indices of each registry are exactly `0, …, length-1`
in order. -/
def IdxWF (s : AppState) : Prop :=
  s.wallets.solana.map (·.index) = List.range s.wallets.solana.length ∧
  s.wallets.ethereum.map (·.index) = List.range s.wallets.ethereum.length

/-- Split a character list at every `/` (the segments of a derivation
path, as in `"m/44'/501'/0'/0'".split('/')`). -/
def splitSlash : List Char → List (List Char)
  | [] => [[]]
  | c :: cs =>
    if c = '/' then [] :: splitSlash cs
    else
      match splitSlash cs with
      | s :: rest => (c :: s) :: rest
      | [] => [[c]]

/-- The `/`-separated segments of a derivation path string. -/
def pathSegments (p : String) : List (List Char) := splitSlash p.data

/-- `p` and `q` have the same number of segments and agree everywhere
except exactly at the account segment (position 3). -/
def differOnlyAtAccount (p q : String) : Prop :=
  (pathSegments p).length = (pathSegments q).length ∧
  (pathSegments p)[3]? ≠ (pathSegments q)[3]? ∧
  ∀ j < (pathSegments p).length, j ≠ 3 → (pathSegments p)[j]? = (pathSegments q)[j]?

/-! Concrete scenario states used to evaluate the operations. -/

/-- A fresh session with the mnemonic `"alpha"` imported. -/
def sExample : AppState := setMnemonic cmTest "alpha" initialState

/-- Three Solana wallets derived (indices 0, 1, 2). -/
def sThree : AppState :=
  generateSolanaWallet cmTest (generateSolanaWallet cmTest (generateSolanaWallet cmTest sExample))

/-- Remove the record whose `index` field is 1 (it sits at position 1 of
`sThree`'s registry), then derive once more. -/
def sRemoved1 : AppState := generateSolanaWallet cmTest (removeWallet .solana 1 sThree)

/-- Remove the record at position 0, then derive once more. -/
def sRemoved0 : AppState := generateSolanaWallet cmTest (removeWallet .solana 0 sThree)

/-- A record with address `"A"`. -/
def wA : WalletData := ⟨"A", "pA", solanaPath 0, 0⟩

/-- A record with address `"B"`. -/
def wB : WalletData := ⟨"B", "pB", solanaPath 1, 1⟩

/-- A state whose Solana registry holds `wA` then `wB`. -/
def sAB : AppState := ⟨"alpha", "alpha", ⟨[wA, wB], []⟩, ""⟩

/-- The same records in the opposite order. -/
def sBA : AppState := ⟨"alpha", "alpha", ⟨[wB, wA], []⟩, ""⟩

/-! ### Injectivity of the decimal rendering of indices

The derivation-path strings embed the wallet index via `Nat.repr` (the
template literal `${currentIndex}` of the source).  To reason about path
distinctness we show `Nat.repr` is injective, by reading the decimal
characters back. -/

/-- Read a most-significant-first decimal character list back to a number. -/
def digitsVal (l : List Char) : Nat :=
  l.foldl (fun a c => 10 * a + (c.toNat - 48)) 0

lemma digitChar_val : ∀ r : Nat, r < 10 → (Nat.digitChar r).toNat - 48 = r := by
  decide

lemma toDigitsCore_foldl : ∀ (f n : Nat) (ds : List Char), n < f →
    List.foldl (fun a c => 10 * a + (c.toNat - 48)) 0 (Nat.toDigitsCore 10 f n ds)
      = List.foldl (fun a c => 10 * a + (c.toNat - 48)) n ds := by
  intro f
  induction f with
  | zero => intro n ds h; exact absurd h (Nat.not_lt_zero n)
  | succ f ih =>
    intro n ds h
    have hdm := Nat.div_add_mod n 10
    have hml : n % 10 < 10 := Nat.mod_lt n (by omega)
    by_cases h10 : n / 10 = 0
    · have hn : n < 10 := by omega
      have hmod : n % 10 = n := Nat.mod_eq_of_lt hn
      simp only [Nat.toDigitsCore, h10, if_true, List.foldl_cons]
      rw [hmod, digitChar_val n hn]
      have h0 : 10 * 0 + n = n := by omega
      rw [h0]
    · have hne : n ≠ 0 := fun h0 => h10 (by simp [h0])
      have hlt : n / 10 < f := by
        have h1 : n / 10 < n := Nat.div_lt_self (Nat.pos_of_ne_zero hne) (by omega)
        omega
      simp only [Nat.toDigitsCore, h10, if_false]
      rw [ih (n / 10) (Nat.digitChar (n % 10) :: ds) hlt, List.foldl_cons,
        digitChar_val (n % 10) hml]
      have h0 : 10 * (n / 10) + n % 10 = n := by omega
      rw [h0]

lemma digitsVal_repr (n : Nat) : digitsVal (Nat.repr n).data = n := by
  have h := toDigitsCore_foldl (n + 1) n [] (Nat.lt_succ_self n)
  simpa [digitsVal, Nat.repr, Nat.toDigits, List.asString] using h

lemma repr_injective : Function.Injective Nat.repr := by
  intro a b h
  have ha := digitsVal_repr a
  have hb := digitsVal_repr b
  rw [h] at ha
  omega

lemma solanaPath_injective : Function.Injective solanaPath := by
  intro i j h
  apply repr_injective
  apply String.ext
  have hd : (solanaPath i).data = (solanaPath j).data := congrArg String.data h
  simp only [solanaPath, String.data_append] at hd
  have h1 := List.append_cancel_right hd
  exact List.append_cancel_left h1

lemma ethereumPath_injective : Function.Injective ethereumPath := by
  intro i j h
  apply repr_injective
  apply String.ext
  have hd : (ethereumPath i).data = (ethereumPath j).data := congrArg String.data h
  simp only [ethereumPath, String.data_append] at hd
  exact List.append_cancel_left hd

/-! ### The positional filter of `removeWallet` -/

lemma enumFrom_filter_map (i : Nat) : ∀ (n : Nat) (l : List WalletData),
    ((List.enumFrom n l).filter (fun p => p.1 != i)).map Prod.snd
      = if n ≤ i then l.take (i - n) ++ l.drop (i - n + 1) else l := by
  intro n l
  induction l generalizing n with
  | nil => simp
  | cons a t ih =>
    simp only [List.enumFrom_cons, List.filter_cons]
    by_cases hni : n = i
    · subst hni
      simp only [bne_self_eq_false, Bool.false_eq_true, if_false]
      rw [ih (n + 1)]
      have h1 : ¬ (n + 1 ≤ n) := by omega
      simp [h1, Nat.sub_self]
    · have hb : (n != i) = true := by simpa using hni
      simp only [hb, if_true, List.map_cons]
      rw [ih (n + 1)]
      by_cases hle : n ≤ i
      · have h1 : n + 1 ≤ i := by omega
        have h2 : i - n = (i - (n + 1)) + 1 := by omega
        simp only [hle, if_true, h1, h2, List.take_succ_cons, List.drop_succ_cons,
          List.cons_append]
      · have h1 : ¬ (n + 1 ≤ i) := by omega
        simp [hle, h1]

lemma filterIdxNe_eq (l : List WalletData) (i : Nat) :
    filterIdxNe l i = l.take i ++ l.drop (i + 1) := by
  have h := enumFrom_filter_map i 0 l
  simpa [filterIdxNe, List.enum] using h

lemma mem_filterIdxNe {r : WalletData} {l : List WalletData} {i : Nat}
    (h : r ∈ filterIdxNe l i) : r ∈ l := by
  rw [filterIdxNe_eq] at h
  rcases List.mem_append.1 h with h' | h'
  · exact List.take_subset _ _ h'
  · exact List.drop_subset _ _ h'

lemma filterIdxNe_of_le {l : List WalletData} {i : Nat} (h : l.length ≤ i) :
    filterIdxNe l i = l := by
  rw [filterIdxNe_eq, List.take_of_length_le h, List.drop_eq_nil_of_le (by omega),
    List.append_nil]

/-! ### Concrete evaluation helpers

`String.trim` is defined by well-founded recursion on byte positions, so
closed instances are evaluated by unfolding the two auxiliary scans once
(no character of `"alpha"` is whitespace). -/

lemma trim_alpha : "alpha".trim = "alpha" := by
  show (Substring.trim ⟨"alpha", ⟨0⟩, ⟨5⟩⟩).toString = "alpha"
  unfold Substring.trim
  dsimp only
  rw [show Substring.takeWhileAux "alpha" ⟨5⟩ Char.isWhitespace ⟨0⟩ = ⟨0⟩ by
        unfold Substring.takeWhileAux; decide]
  rw [show Substring.takeRightWhileAux "alpha" ⟨0⟩ Char.isWhitespace ⟨5⟩ = ⟨5⟩ by
        unfold Substring.takeRightWhileAux; decide]
  decide

lemma trim_empty : "".trim = "" := by
  show (Substring.trim ⟨"", ⟨0⟩, ⟨0⟩⟩).toString = ""
  unfold Substring.trim
  dsimp only
  rw [show Substring.takeWhileAux "" ⟨0⟩ Char.isWhitespace ⟨0⟩ = ⟨0⟩ by
        unfold Substring.takeWhileAux; decide]
  rw [show Substring.takeRightWhileAux "" ⟨0⟩ Char.isWhitespace ⟨0⟩ = ⟨0⟩ by
        unfold Substring.takeRightWhileAux; decide]
  decide

lemma sExample_eq : sExample = ⟨"alpha", "alpha", ⟨[], []⟩, ""⟩ := by
  unfold sExample setMnemonic importMnemonic
  dsimp only
  rw [trim_alpha]
  decide

/-! ### Preservation of the registry invariants -/

lemma stateWF_deriveSol (c : CryptoModel) {s : AppState} (h : StateWF s) :
    StateWF (generateSolanaWallet c s) := by
  unfold generateSolanaWallet
  split
  · exact h
  · dsimp only
    split
    · refine ⟨?_, h.2⟩
      intro r hr
      rcases List.mem_append.1 hr with h' | h'
      · exact h.1 r h'
      · have : r = ⟨_, _, solanaPath s.wallets.solana.length, s.wallets.solana.length⟩ :=
          List.mem_singleton.1 h'
        subst this
        rfl
    · exact h

lemma stateWF_deriveEth (c : CryptoModel) {s : AppState} (h : StateWF s) :
    StateWF (generateEthereumWallet c s) := by
  unfold generateEthereumWallet
  split
  · exact h
  · dsimp only
    split
    · refine ⟨h.1, ?_⟩
      intro r hr
      rcases List.mem_append.1 hr with h' | h'
      · exact h.2 r h'
      · have : r = ⟨_, _, ethereumPath s.wallets.ethereum.length, s.wallets.ethereum.length⟩ :=
          List.mem_singleton.1 h'
        subst this
        rfl
    · exact h

lemma stateWF_step {c : CryptoModel} {s t : AppState} (hst : Step c s t)
    (h : StateWF s) : StateWF t := by
  cases hst with
  | deriveSol => exact stateWF_deriveSol c h
  | deriveEth => exact stateWF_deriveEth c h
  | removeW chain i =>
    cases chain with
    | solana => exact ⟨fun r hr => h.1 r (mem_filterIdxNe hr), h.2⟩
    | ethereum => exact ⟨h.1, fun r hr => h.2 r (mem_filterIdxNe hr)⟩
  | importM =>
    unfold importMnemonic
    dsimp only
    split
    · exact h
    · split
      · exact ⟨fun r hr => absurd hr (List.not_mem_nil r), fun r hr => absurd hr (List.not_mem_nil r)⟩
      · exact h
  | genM m =>
    exact ⟨fun r hr => absurd hr (List.not_mem_nil r), fun r hr => absurd hr (List.not_mem_nil r)⟩
  | clearS =>
    exact ⟨fun r hr => absurd hr (List.not_mem_nil r), fun r hr => absurd hr (List.not_mem_nil r)⟩
  | editCustom m => exact h

lemma stateWF_reach {c : CryptoModel} {s t : AppState} (h : Reach c s t)
    (h0 : StateWF s) : StateWF t := by
  induction h with
  | refl => exact h0
  | tail _ hst ih => exact stateWF_step hst ih

lemma idxWF_deriveSol (c : CryptoModel) {s : AppState} (h : IdxWF s) :
    IdxWF (generateSolanaWallet c s) := by
  unfold generateSolanaWallet
  split
  · exact h
  · dsimp only
    split
    · constructor
      · simp [h.1, List.range_succ]
      · simpa using h.2
    · exact h

lemma idxWF_deriveEth (c : CryptoModel) {s : AppState} (h : IdxWF s) :
    IdxWF (generateEthereumWallet c s) := by
  unfold generateEthereumWallet
  split
  · exact h
  · dsimp only
    split
    · constructor
      · simpa using h.1
      · simp [h.2, List.range_succ]
    · exact h

lemma inv_dstep {c : CryptoModel} {s t : AppState} (hst : DeriveStep c s t)
    (h : IdxWF s ∧ StateWF s) : IdxWF t ∧ StateWF t := by
  cases hst with
  | deriveSol => exact ⟨idxWF_deriveSol c h.1, stateWF_deriveSol c h.2⟩
  | deriveEth => exact ⟨idxWF_deriveEth c h.1, stateWF_deriveEth c h.2⟩

lemma inv_dreach {c : CryptoModel} {s t : AppState} (h : DeriveReach c s t)
    (h0 : IdxWF s ∧ StateWF s) : IdxWF t ∧ StateWF t := by
  induction h with
  | refl => exact h0
  | tail _ hst ih => exact inv_dstep hst ih

lemma nodup_paths {s : AppState} (hIdx : IdxWF s) (hWF : StateWF s) :
    (s.wallets.solana.map (·.derivationPath)).Nodup ∧
      (s.wallets.ethereum.map (·.derivationPath)).Nodup := by
  constructor
  · have h1 : s.wallets.solana.map (·.derivationPath)
        = s.wallets.solana.map (fun r => solanaPath r.index) :=
      List.map_congr_left (fun r hr => hWF.1 r hr)
    have h2 : s.wallets.solana.map (fun r => solanaPath r.index)
        = (s.wallets.solana.map (·.index)).map solanaPath := by
      rw [List.map_map]; rfl
    rw [h1, h2, hIdx.1]
    exact (List.nodup_range _).map solanaPath_injective
  · have h1 : s.wallets.ethereum.map (·.derivationPath)
        = s.wallets.ethereum.map (fun r => ethereumPath r.index) :=
      List.map_congr_left (fun r hr => hWF.2 r hr)
    have h2 : s.wallets.ethereum.map (fun r => ethereumPath r.index)
        = (s.wallets.ethereum.map (·.index)).map ethereumPath := by
      rw [List.map_map]; rfl
    rw [h1, h2, hIdx.2]
    exact (List.nodup_range _).map ethereumPath_injective

/-! ### Single-step computation lemmas -/

lemma setMnemonic_initialState (c : CryptoModel) (M : String)
    (hne : M.trim ≠ "") (hv : c.validateMnemonic M.trim = true) :
    setMnemonic c M initialState = ⟨M.trim, M, ⟨[], []⟩, ""⟩ := by
  unfold setMnemonic importMnemonic initialState
  dsimp only
  rw [if_neg hne, if_pos hv]

lemma setMnemonic_clear (c : CryptoModel) (M : String) (s : AppState)
    (hne : M.trim ≠ "") (hv : c.validateMnemonic M.trim = true) :
    setMnemonic c M (clear s) = ⟨M.trim, M, ⟨[], []⟩, ""⟩ := by
  unfold setMnemonic clear importMnemonic
  dsimp only
  rw [if_neg hne, if_pos hv]

lemma generateSolanaWallet_ok (c : CryptoModel) (m cu er a p : String)
    (sol eth : List WalletData) (hm : m ≠ "")
    (hd : c.solDerive (solanaPath sol.length) (c.mnemonicToSeed m) = .ok (a, p)) :
    generateSolanaWallet c ⟨m, cu, ⟨sol, eth⟩, er⟩
      = ⟨m, cu, ⟨sol ++ [⟨a, p, solanaPath sol.length, sol.length⟩], eth⟩, ""⟩ := by
  unfold generateSolanaWallet
  rw [if_neg hm]
  dsimp only
  rw [hd]

lemma generateEthereumWallet_ok (c : CryptoModel) (m cu er a p : String)
    (sol eth : List WalletData) (hm : m ≠ "")
    (hd : c.ethDerive (c.mnemonicToSeed m) (ethereumPath eth.length) = .ok (a, p)) :
    generateEthereumWallet c ⟨m, cu, ⟨sol, eth⟩, er⟩
      = ⟨m, cu, ⟨sol, eth ++ [⟨a, p, ethereumPath eth.length, eth.length⟩]⟩, ""⟩ := by
  unfold generateEthereumWallet
  rw [if_neg hm]
  dsimp only
  rw [hd]

/-! ## Claim C1 -/

/-- C1 counterexample: from a fresh session with mnemonic `"alpha"`,
deriving three Solana wallets yields records with index fields 0, 1, 2;
after removing the record whose index field is 1 (at position 1) the next
derivation yields a record with index field 2 — not 3 — because
`generateSolanaWallet` takes the next index from the current registry
length, which the removal decremented. -/
theorem C1_counterexample :
    sThree.wallets.solana.map (·.index) = [0, 1, 2] ∧
    (sThree.wallets.solana.map (·.index))[1]? = some 1 ∧
    sRemoved1.wallets.solana.map (·.index) = [0, 2, 2] ∧
    sRemoved1.wallets.solana.getLast?.map (·.index) = some 2 ∧
    sRemoved1.wallets.solana.getLast?.map (·.index) ≠ some 3 := by
  simp only [sRemoved1, sThree, sExample_eq]
  decide

/-- C1 (amended): `nextIndex(chain)` is the current length of the chain's
registry, not a monotonic session counter, so a removal does decrement it
(in the scenario of the counterexample the derive after the removal yields
index 2).  Formally: a successful `generateSolanaWallet` appends a record
whose `index` (and path account) is the registry length at call time. -/
theorem C1_amended (c : CryptoModel) (s : AppState) (a p : String)
    (hm : s.mnemonic ≠ "")
    (hd : c.solDerive (solanaPath s.wallets.solana.length) (c.mnemonicToSeed s.mnemonic)
      = .ok (a, p)) :
    (generateSolanaWallet c s).wallets.solana
      = s.wallets.solana
        ++ [⟨a, p, solanaPath s.wallets.solana.length, s.wallets.solana.length⟩] := by
  unfold generateSolanaWallet
  rw [if_neg hm]
  dsimp only
  rw [hd]

/-- C1 witness: `C1_amended` evaluated at the test crypto model and the
fresh session `sExample`. -/
theorem C1_witness :
    sExample.mnemonic ≠ "" ∧
    cmTest.solDerive (solanaPath sExample.wallets.solana.length)
        (cmTest.mnemonicToSeed sExample.mnemonic)
      = .ok ("solA:alpha:seed:m/44\x27/501\x27/0\x27/0\x27",
             "solP:m/44\x27/501\x27/0\x27/0\x27") ∧
    (generateSolanaWallet cmTest sExample).wallets.solana
      = sExample.wallets.solana
        ++ [⟨"solA:alpha:seed:m/44\x27/501\x27/0\x27/0\x27",
             "solP:m/44\x27/501\x27/0\x27/0\x27",
             solanaPath sExample.wallets.solana.length,
             sExample.wallets.solana.length⟩] :=
  ⟨by rw [sExample_eq]; decide, by rw [sExample_eq]; rfl,
   C1_amended cmTest sExample _ _ (by rw [sExample_eq]; decide) (by rw [sExample_eq]; rfl)⟩

/-! ## Claim C2 -/

/-- C2 counterexample: the state `sRemoved0` is reachable from the fresh
session `sExample` by derive and remove operations under the fixed mnemonic
`"alpha"`, yet its Solana registry holds two records with the same
`derivationPath` — and, derivation being deterministic, the same address. -/
theorem C2_counterexample :
    Reach cmTest sExample sRemoved0 ∧
    ¬ (sRemoved0.wallets.solana.map (·.derivationPath)).Nodup ∧
    ¬ (sRemoved0.wallets.solana.map (·.address)).Nodup := by
  refine ⟨?_, by simp only [sRemoved0, sThree, sExample_eq]; decide,
    by simp only [sRemoved0, sThree, sExample_eq]; decide⟩
  exact .tail
    (.tail (.tail (.tail (.tail (.refl _) (.deriveSol _)) (.deriveSol _)) (.deriveSol _))
      (.removeW .solana 0 _))
    (.deriveSol _)

/-- C2 (amended): once removals are allowed a derivation path can recur
(see the counterexample); in every state reachable by derive operations
alone from a state with empty registries, no two records of the same
chain's registry share a `derivationPath`. -/
theorem C2_amended (c : CryptoModel) (s0 s : AppState) (h : DeriveReach c s0 s)
    (h0 : s0.wallets = ⟨[], []⟩) :
    (s.wallets.solana.map (·.derivationPath)).Nodup ∧
    (s.wallets.ethereum.map (·.derivationPath)).Nodup := by
  have hInv : IdxWF s0 ∧ StateWF s0 := by
    refine ⟨⟨?_, ?_⟩, ?_, ?_⟩
    · rw [h0]; rfl
    · rw [h0]; rfl
    · intro r hr; rw [h0] at hr; exact absurd hr (List.not_mem_nil r)
    · intro r hr; rw [h0] at hr; exact absurd hr (List.not_mem_nil r)
  have h2 := inv_dreach h hInv
  exact nodup_paths h2.1 h2.2

/-- C2 witness: `C2_amended` evaluated on two consecutive Solana
derivations from the fresh session `sExample`. -/
theorem C2_witness :
    DeriveReach cmTest sExample (generateSolanaWallet cmTest (generateSolanaWallet cmTest sExample)) ∧
    sExample.wallets = ⟨[], []⟩ ∧
    ((generateSolanaWallet cmTest (generateSolanaWallet cmTest sExample)).wallets.solana.map
      (·.derivationPath)).Nodup ∧
    ((generateSolanaWallet cmTest (generateSolanaWallet cmTest sExample)).wallets.ethereum.map
      (·.derivationPath)).Nodup := by
  have hre : DeriveReach cmTest sExample
      (generateSolanaWallet cmTest (generateSolanaWallet cmTest sExample)) :=
    .tail (.tail (.refl _) (.deriveSol _)) (.deriveSol _)
  have h := C2_amended cmTest sExample _ hre (by rw [sExample_eq])
  exact ⟨hre, by rw [sExample_eq], h.1, h.2⟩

/-! ## Claim C3 -/

/-- C3 counterexample: in `initialState` no mnemonic is set; `deriveNext`
on either chain returns the state entirely unchanged, and in particular the
`error` field stays `""`: no `NoMnemonicError` is reported to the caller —
the guard `if (!mnemonic) return;` is a silent early return. -/
theorem C3_counterexample :
    initialState.mnemonic = "" ∧
    deriveNext cmTest .solana initialState = initialState ∧
    deriveNext cmTest .ethereum initialState = initialState ∧
    (deriveNext cmTest .solana initialState).error = "" ∧
    (deriveNext cmTest .ethereum initialState).error = "" := by
  decide

/-- C3 (amended): with no mnemonic set, `deriveNext` on either chain is a
silent no-op: it derives nothing, reports no error, and leaves the whole
state (registries, mnemonic, error banner) unchanged. -/
theorem C3_amended (c : CryptoModel) (chain : Chain) (s : AppState)
    (h : s.mnemonic = "") : deriveNext c chain s = s := by
  cases chain <;>
    simp [deriveNext, generateSolanaWallet, generateEthereumWallet, h]

/-- C3 witness: `C3_amended` evaluated at `initialState` on Solana with the
test crypto model. -/
theorem C3_witness :
    initialState.mnemonic = "" ∧ deriveNext cmTest .solana initialState = initialState :=
  ⟨rfl, C3_amended cmTest .solana initialState rfl⟩

/-! ## Claim C4 -/

/-- C4 counterexample: the first Ethereum wallet derived in a fresh session
carries the derivation path `m/44'/60'/0` — a non-hardened account segment
and no change segment — which is not the test-vector path `m/44'/60'/0'/0/0`
named by the claim, and does not fit the claimed shape
`m/44'/{coinType}'/{account}'[/{change}']` (whose account segment always
ends in a hardening marker). -/
theorem C4_counterexample :
    (generateEthereumWallet cmTest sExample).wallets.ethereum.map (·.derivationPath)
      = ["m/44\x27/60\x27/0"] ∧
    ("m/44\x27/60\x27/0" : String) ≠ "m/44\x27/60\x27/0\x27/0/0" := by
  rw [sExample_eq]
  decide

/-- C4 (amended): in every state reachable by any sequence of UI actions
from a state with empty registries, every Solana record's derivationPath is
`m/44'/501'/{index}'/0'` (hardened account and change) and every Ethereum
record's derivationPath is `m/44'/60'/{index}` (non-hardened account, no
change segment), with the account equal to the record's `index` field; in
particular the first Ethereum wallet is derived at `m/44'/60'/0`. -/
theorem C4_amended (c : CryptoModel) (s0 s : AppState) (h : Reach c s0 s)
    (h0 : s0.wallets = ⟨[], []⟩) :
    (∀ r ∈ s.wallets.solana, r.derivationPath = solanaPath r.index) ∧
    (∀ r ∈ s.wallets.ethereum, r.derivationPath = ethereumPath r.index) ∧
    ethereumPath 0 = "m/44\x27/60\x27/0" ∧
    solanaPath 0 = "m/44\x27/501\x27/0\x27/0\x27" := by
  have h0' : StateWF s0 := by
    constructor
    · intro r hr; rw [h0] at hr; exact absurd hr (List.not_mem_nil r)
    · intro r hr; rw [h0] at hr; exact absurd hr (List.not_mem_nil r)
  have hWF := stateWF_reach h h0'
  exact ⟨hWF.1, hWF.2, rfl, rfl⟩

/-- C4 witness: `C4_amended` evaluated on one Ethereum derivation from the
fresh session `sExample`; the binder-free consequence recorded here is the
concrete shape of the first Ethereum path. -/
theorem C4_witness :
    Reach cmTest sExample (generateEthereumWallet cmTest sExample) ∧
    sExample.wallets = ⟨[], []⟩ ∧
    ethereumPath 0 = "m/44\x27/60\x27/0" := by
  have hre : Reach cmTest sExample (generateEthereumWallet cmTest sExample) :=
    .tail (.refl _) (.deriveEth _)
  exact ⟨hre, by rw [sExample_eq],
    (C4_amended cmTest sExample _ hre (by rw [sExample_eq])).2.2.1⟩

/-! ## Claim C5 -/

/-- C5 counterexample: `removeWallet` selects the record to remove by its
position in the displayed sequence, not by its address: on two registries
holding the same two records in opposite orders, `removeWallet(solana, 0)`
removes records with different addresses, so the removed record is not a
function of any address identity. -/
theorem C5_counterexample :
    (removeWallet .solana 0 sAB).wallets.solana = [wB] ∧
    (removeWallet .solana 0 sBA).wallets.solana = [wA] ∧
    wA.address ≠ wB.address := by
  decide

/-- C5 (amended): `removeWallet(chain, i)` removes exactly the record at
position `i` of that chain's registry — at most one record; a position
matching no record (out of range) is a no-op that does not throw and leaves
the whole state, hence the registry (length, records, order), unchanged. -/
theorem C5_amended (chain : Chain) (i : Nat) (s : AppState) :
    registry chain (removeWallet chain i s)
      = (registry chain s).take i ++ (registry chain s).drop (i + 1) ∧
    ((registry chain s).length ≤ i → removeWallet chain i s = s) ∧
    (registry chain s).length ≤ (registry chain (removeWallet chain i s)).length + 1 := by
  have hlen : ∀ l : List WalletData, l.length ≤ (l.take i ++ l.drop (i + 1)).length + 1 := by
    intro l
    rw [List.length_append, List.length_take, List.length_drop]
    omega
  cases chain
  · refine ⟨filterIdxNe_eq _ _, fun hle => ?_, ?_⟩
    · have hle' : s.wallets.solana.length ≤ i := hle
      show ({ s with wallets := { s.wallets with
          solana := filterIdxNe s.wallets.solana i } } : AppState) = s
      rw [filterIdxNe_of_le hle']
    · show s.wallets.solana.length ≤ (filterIdxNe s.wallets.solana i).length + 1
      rw [filterIdxNe_eq]
      exact hlen _
  · refine ⟨filterIdxNe_eq _ _, fun hle => ?_, ?_⟩
    · have hle' : s.wallets.ethereum.length ≤ i := hle
      show ({ s with wallets := { s.wallets with
          ethereum := filterIdxNe s.wallets.ethereum i } } : AppState) = s
      rw [filterIdxNe_of_le hle']
    · show s.wallets.ethereum.length ≤ (filterIdxNe s.wallets.ethereum i).length + 1
      rw [filterIdxNe_eq]
      exact hlen _

/-- C5 witness: `C5_amended` evaluated at a position (5) that matches no
record of `sAB`'s two-element Solana registry: the call is a no-op. -/
theorem C5_witness :
    (registry .solana sAB).length ≤ 5 ∧ removeWallet .solana 5 sAB = sAB :=
  ⟨by decide, (C5_amended .solana 5 sAB).2.1 (by decide)⟩

/-! ## Claim C6 -/

/-- C6 (confirmed): two-run determinism.  For every valid mnemonic `M`
(and every deterministic crypto model, with the first derivation
succeeding), the runs `setMnemonic(M); deriveNext(Solana)` and
`clear(); setMnemonic(M); deriveNext(Solana)` produce the same singleton
Solana registry, so the two records R1 and R2 agree on `address` and
`privateKey`: derivation is a pure function of mnemonic and index with no
randomness. -/
theorem C6_determinism (c : CryptoModel) (M a p : String)
    (hne : M.trim ≠ "") (hv : c.validateMnemonic M.trim = true)
    (hd : c.solDerive (solanaPath 0) (c.mnemonicToSeed M.trim) = .ok (a, p)) :
    (generateSolanaWallet c (setMnemonic c M initialState)).wallets.solana
      = [⟨a, p, solanaPath 0, 0⟩] ∧
    (generateSolanaWallet c (setMnemonic c M
        (clear (generateSolanaWallet c (setMnemonic c M initialState))))).wallets.solana
      = [⟨a, p, solanaPath 0, 0⟩] := by
  have h2 : generateSolanaWallet c (⟨M.trim, M, ⟨[], []⟩, ""⟩ : AppState)
      = ⟨M.trim, M, ⟨[⟨a, p, solanaPath 0, 0⟩], []⟩, ""⟩ :=
    generateSolanaWallet_ok c M.trim M "" a p [] [] hne hd
  constructor
  · rw [setMnemonic_initialState c M hne hv, h2]
  · rw [setMnemonic_initialState c M hne hv, h2, setMnemonic_clear c M _ hne hv, h2]

/-- C6 witness: `C6_determinism` evaluated at the test crypto model and the
mnemonic `"alpha"`. -/
theorem C6_witness :
    ("alpha" : String).trim ≠ "" ∧
    cmTest.validateMnemonic ("alpha" : String).trim = true ∧
    cmTest.solDerive (solanaPath 0) (cmTest.mnemonicToSeed ("alpha" : String).trim)
      = .ok ("solA:alpha:seed:m/44\x27/501\x27/0\x27/0\x27",
             "solP:m/44\x27/501\x27/0\x27/0\x27") ∧
    (generateSolanaWallet cmTest (setMnemonic cmTest "alpha" initialState)).wallets.solana
      = [⟨"solA:alpha:seed:m/44\x27/501\x27/0\x27/0\x27",
          "solP:m/44\x27/501\x27/0\x27/0\x27", solanaPath 0, 0⟩] := by
  refine ⟨?_, ?_, ?_, ?_⟩
  · rw [trim_alpha]; decide
  · rw [trim_alpha]; rfl
  · rw [trim_alpha]; rfl
  · exact (C6_determinism cmTest "alpha" _ _ (by rw [trim_alpha]; decide)
      (by rw [trim_alpha]; rfl) (by rw [trim_alpha]; rfl)).1

/-! ## Claim C7 -/

/-- C7 (confirmed): importing an invalid mnemonic candidate — empty after
trimming, or rejected by `validateMnemonic` — reports a validation error in
the `error` field and leaves the current mnemonic, the import textarea and
both chain registries exactly as they were. -/
theorem C7_invalid_import (c : CryptoModel) (s : AppState)
    (h : s.customMnemonic.trim = "" ∨ c.validateMnemonic s.customMnemonic.trim = false) :
    (importMnemonic c s).mnemonic = s.mnemonic ∧
    (importMnemonic c s).wallets = s.wallets ∧
    (importMnemonic c s).customMnemonic = s.customMnemonic ∧
    (importMnemonic c s).error ≠ "" := by
  unfold importMnemonic
  dsimp only
  rcases h with h | h
  · rw [if_pos h]
    exact ⟨rfl, rfl, rfl, by
      show ("Please enter a mnemonic phrase" : String) ≠ ""
      decide⟩
  · by_cases h2 : s.customMnemonic.trim = ""
    · rw [if_pos h2]
      exact ⟨rfl, rfl, rfl, by
        show ("Please enter a mnemonic phrase" : String) ≠ ""
        decide⟩
    · rw [if_neg h2, if_neg (by simp [h])]
      exact ⟨rfl, rfl, rfl, by
        show ("Invalid mnemonic phrase. Please check and try again." : String) ≠ ""
        decide⟩

/-- C7 witness: `C7_invalid_import` evaluated at `initialState`, whose
mnemonic textarea is empty. -/
theorem C7_witness :
    (initialState.customMnemonic.trim = ""
      ∨ cmTest.validateMnemonic initialState.customMnemonic.trim = false) ∧
    (importMnemonic cmTest initialState).mnemonic = initialState.mnemonic ∧
    (importMnemonic cmTest initialState).wallets = initialState.wallets ∧
    (importMnemonic cmTest initialState).error ≠ "" := by
  have hempty : initialState.customMnemonic.trim = "" := trim_empty
  have h := C7_invalid_import cmTest initialState (Or.inl hempty)
  exact ⟨Or.inl hempty, h.1, h.2.1, h.2.2.2⟩

/-! ## Claim C8 -/

/-- C8 (confirmed): for every valid mnemonic `M` and chain `C` (and every
deterministic crypto model whose two derivations succeed and, as the spec
assumes of real key derivation, do not collide), calling `deriveNext(C)`
twice right after `setMnemonic(M)` yields two records with index fields 0
and 1, distinct addresses, and derivation paths that differ only in the
account segment. -/
theorem C8_two_derivations (c : CryptoModel) (M : String) (chain : Chain)
    (a0 p0 a1 p1 : String)
    (hne : M.trim ≠ "") (hv : c.validateMnemonic M.trim = true)
    (hd0 : chainDerive c chain (c.mnemonicToSeed M.trim) (chainPath chain 0) = .ok (a0, p0))
    (hd1 : chainDerive c chain (c.mnemonicToSeed M.trim) (chainPath chain 1) = .ok (a1, p1))
    (haddr : a0 ≠ a1) :
    registry chain (deriveNext c chain (deriveNext c chain (setMnemonic c M initialState)))
      = [⟨a0, p0, chainPath chain 0, 0⟩, ⟨a1, p1, chainPath chain 1, 1⟩] ∧
    a0 ≠ a1 ∧
    differOnlyAtAccount (chainPath chain 0) (chainPath chain 1) := by
  cases chain with
  | solana =>
    have hd0' : c.solDerive (solanaPath 0) (c.mnemonicToSeed M.trim) = .ok (a0, p0) := hd0
    have hd1' : c.solDerive (solanaPath 1) (c.mnemonicToSeed M.trim) = .ok (a1, p1) := hd1
    refine ⟨?_, haddr, by unfold differOnlyAtAccount; decide⟩
    show (generateSolanaWallet c (generateSolanaWallet c
        (setMnemonic c M initialState))).wallets.solana
      = [⟨a0, p0, solanaPath 0, 0⟩, ⟨a1, p1, solanaPath 1, 1⟩]
    rw [setMnemonic_initialState c M hne hv,
      generateSolanaWallet_ok c M.trim M "" a0 p0 [] [] hne hd0']
    simp only [List.nil_append, List.length_nil]
    rw [generateSolanaWallet_ok c M.trim M "" a1 p1 [⟨a0, p0, solanaPath 0, 0⟩] [] hne hd1']
    rfl
  | ethereum =>
    have hd0' : c.ethDerive (c.mnemonicToSeed M.trim) (ethereumPath 0) = .ok (a0, p0) := hd0
    have hd1' : c.ethDerive (c.mnemonicToSeed M.trim) (ethereumPath 1) = .ok (a1, p1) := hd1
    refine ⟨?_, haddr, by unfold differOnlyAtAccount; decide⟩
    show (generateEthereumWallet c (generateEthereumWallet c
        (setMnemonic c M initialState))).wallets.ethereum
      = [⟨a0, p0, ethereumPath 0, 0⟩, ⟨a1, p1, ethereumPath 1, 1⟩]
    rw [setMnemonic_initialState c M hne hv,
      generateEthereumWallet_ok c M.trim M "" a0 p0 [] [] hne hd0']
    simp only [List.nil_append, List.length_nil]
    rw [generateEthereumWallet_ok c M.trim M "" a1 p1 [] [⟨a0, p0, ethereumPath 0, 0⟩] hne hd1']
    rfl

/-- C8 witness: `C8_two_derivations` evaluated at the test crypto model,
mnemonic `"alpha"`, on the Solana chain. -/
theorem C8_witness :
    ("alpha" : String).trim ≠ "" ∧
    cmTest.validateMnemonic ("alpha" : String).trim = true ∧
    ("solA:alpha:seed:m/44\x27/501\x27/0\x27/0\x27" : String)
      ≠ "solA:alpha:seed:m/44\x27/501\x27/1\x27/0\x27" ∧
    registry .solana (deriveNext cmTest .solana (deriveNext cmTest .solana
        (setMnemonic cmTest "alpha" initialState)))
      = [⟨"solA:alpha:seed:m/44\x27/501\x27/0\x27/0\x27",
          "solP:m/44\x27/501\x27/0\x27/0\x27", chainPath .solana 0, 0⟩,
         ⟨"solA:alpha:seed:m/44\x27/501\x27/1\x27/0\x27",
          "solP:m/44\x27/501\x27/1\x27/0\x27", chainPath .solana 1, 1⟩] := by
  refine ⟨?_, ?_, by decide, ?_⟩
  · rw [trim_alpha]; decide
  · rw [trim_alpha]; rfl
  · exact (C8_two_derivations cmTest "alpha" .solana _ _ _ _
      (by rw [trim_alpha]; decide) (by rw [trim_alpha]; rfl)
      (by rw [trim_alpha]; rfl) (by rw [trim_alpha]; rfl) (by decide)).1

/-! ## Claim C9 -/

/-- C9 (confirmed): successfully generating a new mnemonic, and
successfully importing one (nonempty after trimming and accepted by the
validator), reset both chain registries to the empty sequence. -/
theorem C9_reset (c : CryptoModel) (m : String) (s : AppState) :
    (generateNewMnemonic m s).wallets.solana = [] ∧
    (generateNewMnemonic m s).wallets.ethereum = [] ∧
    (s.customMnemonic.trim ≠ "" → c.validateMnemonic s.customMnemonic.trim = true →
      (importMnemonic c s).wallets.solana = [] ∧
      (importMnemonic c s).wallets.ethereum = []) := by
  refine ⟨rfl, rfl, fun h1 h2 => ?_⟩
  unfold importMnemonic
  dsimp only
  rw [if_neg h1, if_pos h2]
  exact ⟨rfl, rfl⟩

/-- C9 witness: `C9_reset` evaluated at the state `sAB` (two Solana wallets
present, textarea `"alpha"`) with the test crypto model. -/
theorem C9_witness :
    sAB.customMnemonic.trim ≠ "" ∧
    cmTest.validateMnemonic sAB.customMnemonic.trim = true ∧
    (generateNewMnemonic "beta" sAB).wallets.solana = [] ∧
    (importMnemonic cmTest sAB).wallets.solana = [] := by
  have h1 : sAB.customMnemonic.trim ≠ "" := by
    show ("alpha" : String).trim ≠ ""
    rw [trim_alpha]; decide
  have h2 : cmTest.validateMnemonic sAB.customMnemonic.trim = true := by
    show cmTest.validateMnemonic ("alpha" : String).trim = true
    rw [trim_alpha]; rfl
  have h := C9_reset cmTest "beta" sAB
  exact ⟨h1, h2, h.1, (h.2.2 h1 h2).1⟩

/-! ## Claim C10 -/

/-- C10 (confirmed): every per-chain operation is confined to its own
chain's registry — deriving a Solana wallet leaves the Ethereum registry
and the mnemonic unchanged, deriving an Ethereum wallet leaves the Solana
registry and the mnemonic unchanged, and `removeWallet` on either chain
leaves the other chain's registry and the mnemonic unchanged. -/
theorem C10_frame (c : CryptoModel) (s : AppState) (i : Nat) :
    (generateSolanaWallet c s).wallets.ethereum = s.wallets.ethereum ∧
    (generateSolanaWallet c s).mnemonic = s.mnemonic ∧
    (generateEthereumWallet c s).wallets.solana = s.wallets.solana ∧
    (generateEthereumWallet c s).mnemonic = s.mnemonic ∧
    (removeWallet .solana i s).wallets.ethereum = s.wallets.ethereum ∧
    (removeWallet .solana i s).mnemonic = s.mnemonic ∧
    (removeWallet .ethereum i s).wallets.solana = s.wallets.solana ∧
    (removeWallet .ethereum i s).mnemonic = s.mnemonic := by
  refine ⟨?_, ?_, ?_, ?_, rfl, rfl, rfl, rfl⟩
  · unfold generateSolanaWallet
    split
    · rfl
    · dsimp only
      split <;> rfl
  · unfold generateSolanaWallet
    split
    · rfl
    · dsimp only
      split <;> rfl
  · unfold generateEthereumWallet
    split
    · rfl
    · dsimp only
      split <;> rfl
  · unfold generateEthereumWallet
    split
    · rfl
    · dsimp only
      split <;> rfl

end HDWallet
